import Mathlib

/-! Verification of the `ha-map` map reconciliation component:
a shallow embedding of `src/frontend/src/components/map/ha-map.ts`.

Modelling conventions:
* JavaScript numbers are modelled exactly as rationals, extended with the
  IEEE special values (`+Infinity`, `-Infinity`, `NaN`) via the `JsNum`
  type where the code can actually produce them (the path-opacity
  computation divides by `points.length - 2`).  Rounding of IEEE doubles
  is not modelled; every claim under study is about exact formulas,
  counts, or control flow.
* JavaScript truthiness checks (`if (latitude && longitude)`,
  `path.gradualOpacity`, `x || y`, `x ?? y`) are modelled explicitly:
  a missing value is `Option.none`, `0` and `""` are falsy.
* Leaflet's layer registry is modelled as a `Finset ℕ` of attached layer
  ids (Leaflet keys layers by a unique stamp; `addLayer` is idempotent,
  `remove` deletes the key).  Every created map object receives a fresh
  id from a monotone counter.
* External collaborators (state-name computation, domain classifier,
  datetime formatters, URL resolver) are parameters of the environment,
  exactly as the spec treats them (external interfaces, "treated as
  given"); sample instances are provided for concrete evaluation.
-/

/-- JavaScript number values produced by the arithmetic in this component:
exact rationals plus the IEEE special values. -/
inductive JsNum where
  | finite (q : ℚ)
  | posInf
  | negInf
  | nan
deriving DecidableEq

namespace JsNum

/-- JavaScript addition on `JsNum` (the cases IEEE defines). -/
def add : JsNum → JsNum → JsNum
  | nan, _ => nan
  | _, nan => nan
  | finite a, finite b => finite (a + b)
  | posInf, negInf => nan
  | negInf, posInf => nan
  | posInf, _ => posInf
  | _, posInf => posInf
  | negInf, _ => negInf
  | _, negInf => negInf

/-- JavaScript multiplication on `JsNum`; `0 * Infinity = NaN`. -/
def mul : JsNum → JsNum → JsNum
  | nan, _ => nan
  | _, nan => nan
  | finite a, finite b => finite (a * b)
  | finite a, posInf => if 0 < a then posInf else if a < 0 then negInf else nan
  | posInf, finite a => if 0 < a then posInf else if a < 0 then negInf else nan
  | finite a, negInf => if 0 < a then negInf else if a < 0 then posInf else nan
  | negInf, finite a => if 0 < a then negInf else if a < 0 then posInf else nan
  | posInf, posInf => posInf
  | negInf, negInf => posInf
  | posInf, negInf => negInf
  | negInf, posInf => negInf

/-- JavaScript division on `JsNum`; division by zero yields an infinity
(or NaN for `0 / 0`), exactly as in IEEE arithmetic (signed zero is not
modelled, `ℚ` has a single zero). -/
def div : JsNum → JsNum → JsNum
  | nan, _ => nan
  | _, nan => nan
  | finite a, finite b =>
      if b = 0 then (if 0 < a then posInf else if a < 0 then negInf else nan)
      else finite (a / b)
  | finite _, posInf => finite 0
  | finite _, negInf => finite 0
  | posInf, finite b => if 0 ≤ b then posInf else negInf
  | negInf, finite b => if 0 ≤ b then negInf else posInf
  | posInf, posInf => nan
  | posInf, negInf => nan
  | negInf, posInf => nan
  | negInf, negInf => nan

end JsNum

/-- Truthiness of an optional JavaScript number: `undefined` and `0` are
falsy. -/
def jsTruthyQ : Option ℚ → Bool
  | none => false
  | some q => decide (q ≠ 0)

/-- Truthiness of an optional JavaScript string: `undefined` and `""` are
falsy. -/
def jsTruthyStr : Option String → Bool
  | none => false
  | some s => decide (s ≠ "")

/-- JavaScript `a || b` for an optional string `a` (falls through on
`undefined` and `""`). -/
def jsOrStr (a : Option String) (b : String) : String :=
  match a with
  | none => b
  | some s => if s = "" then b else s

/-- JavaScript `a || b` for an optional number `a` (falls through on
`undefined` and `0`). -/
def jsOrQ (a : Option ℚ) (b : ℚ) : ℚ :=
  match a with
  | none => b
  | some q => if q = 0 then b else q

/-- A geographic coordinate (Leaflet `LatLngTuple`). -/
structure LatLng where
  lat : ℚ
  lng : ℚ
deriving DecidableEq

/-- `HaMapPathPoint`: a path point with its timestamp (epoch milliseconds). -/
structure HaMapPathPoint where
  point : LatLng
  timestamp : ℤ
deriving DecidableEq

/-- `HaMapPaths`: one path specification. -/
structure HaMapPaths where
  points : List HaMapPathPoint
  color : Option String
  name : Option String
  gradualOpacity : Option ℚ
  fullDatetime : Bool
deriving DecidableEq

/-- Label mode of a structured `HaMapEntity`. -/
inductive LabelMode where
  | name
  | state
deriving DecidableEq

/-- `HaMapEntity`: the structured entity descriptor. -/
structure HaMapEntity where
  entity_id : String
  color : String
  label_mode : Option LabelMode
  name : Option String
  focus : Option Bool
deriving DecidableEq

/-- An element of the `entities` property: a bare identifier string or a
structured descriptor (`string | HaMapEntity`). -/
inductive MapEntitySpec where
  | id (s : String)
  | entity (e : HaMapEntity)
deriving DecidableEq

/-- `getEntityId` from the source: the identifier of either variant. -/
def getEntityId : MapEntitySpec → String
  | .id s => s
  | .entity e => e.entity_id

/-- The attribute record of a snapshot entry, as destructured by
`_drawEntities`. -/
structure StateAttributes where
  latitude : Option ℚ
  longitude : Option ℚ
  passive : Bool
  icon : Option String
  radius : Option ℚ
  entity_picture : Option String
  gps_accuracy : Option ℚ
  friendly_name : Option String
deriving DecidableEq

/-- A snapshot entry (`hass.states[id]`). -/
structure StateObj where
  entity_id : String
  state : String
  attributes : StateAttributes
deriving DecidableEq

/-- Snapshot lookup `hass.states[id]`, with the snapshot as an
association list. -/
def lookupState (states : List (String × StateObj)) (id : String) : Option StateObj :=
  (states.find? (fun p => p.1 == id)).map Prod.snd

/-- Theme mode property (`auto`/`dark`/`light`). -/
inductive ThemeMode where
  | auto
  | dark
  | light
deriving DecidableEq

/-- The HTML content handed to `Leaflet.divIcon`, kept structured:
either a `ha-icon` element, a `span` holding text, or a
`ha-entity-marker` element with its attributes. -/
inductive IconHtml where
  | haIcon (icon : String)
  | spanText (text : String)
  | entityMarker (entityId : String) (entityName : String) (entityPicture : String)
      (entityColor : Option String)
deriving DecidableEq

/-- The options passed to `Leaflet.divIcon`. -/
structure DivIcon where
  html : IconHtml
  iconSize : ℕ × ℕ
  className : String
deriving DecidableEq

/-- One drawn Leaflet object, with the options the source passes at the
creation site.  `circleMarker` receives `bindTooltip` immediately in the
source, so its tooltip is a field; its `fillOpacity` equals its
`opacity` at the creation site, so only one field is kept. -/
inductive DrawnObject where
  | marker (pos : LatLng) (icon : DivIcon) (interactive : Option Bool) (title : String)
  | circle (pos : LatLng) (interactive : Bool) (color : String) (radius : Option ℚ)
  | circleMarker (pos : LatLng) (radius : ℚ) (color : String) (opacity : Option JsNum)
      (tooltip : String)
  | polyline (p1 : LatLng) (p2 : LatLng) (color : String) (opacity : Option JsNum)
deriving DecidableEq

namespace DrawnObject

/-- Is this object a `Leaflet.marker`? -/
def isMarker : DrawnObject → Bool
  | .marker _ _ _ _ => true
  | _ => false

/-- Is this object a `Leaflet.circleMarker` (a path point marker)? -/
def isCircleMarker : DrawnObject → Bool
  | .circleMarker _ _ _ _ _ => true
  | _ => false

/-- Is this object a `Leaflet.polyline` (a path line segment)? -/
def isPolyline : DrawnObject → Bool
  | .polyline _ _ _ _ => true
  | _ => false

/-- The opacity option the object was created with, when it has one. -/
def opacityOf : DrawnObject → Option JsNum
  | .circleMarker _ _ _ o _ => o
  | .polyline _ _ _ o => o
  | _ => none

end DrawnObject

/-- The inputs of the component: reactive properties, the backend state
snapshot, configuration, and the external collaborator functions the
spec lists as external interfaces (treated as given). -/
structure Env where
  hasHass : Bool
  states : List (String × StateObj)
  themesDarkMode : Bool
  configLatitude : ℚ
  configLongitude : ℚ
  entities : Option (List MapEntitySpec)
  paths : Option (List HaMapPaths)
  layers : Option (List ℕ)
  autoFit : Bool
  renderPassive : Bool
  interactiveZones : Bool
  fitZones : Bool
  themeMode : ThemeMode
  zoom : ℚ
  isTouch : Bool
  zoneColor : String
  passiveZoneColor : String
  darkPrimaryColor : String
  computeStateDomain : StateObj → String
  computeStateName : StateObj → String
  formatEntityState : StateObj → String
  hassUrl : String → String
  formatDateTime : ℤ → String
  formatTimeWithSeconds : ℤ → String
  formatTimeWeekday : ℤ → String
  isToday : ℤ → Bool

/-- The `_darkMode` getter: `themeMode === "dark" ||
(themeMode === "auto" && Boolean(hass.themes.darkMode))`. -/
def darkModeOf (env : Env) : Bool :=
  env.themeMode == .dark || (env.themeMode == .auto && env.themesDarkMode)

/-- JavaScript `String.split` with a one-character separator, on the
character list (`"".split(sep)` is `[""]`, as in JavaScript). -/
def splitCharsOn (sep : Char) : List Char → List (List Char)
  | [] => [[]]
  | c :: cs =>
    match splitCharsOn sep cs with
    | [] => if c = sep then [[], [c]] else [[c]]
    | w :: ws => if c = sep then [] :: w :: ws else (c :: w) :: ws

/-- JavaScript `s.split(sep)` for a one-character separator. -/
def jsSplitOn (sep : Char) (s : String) : List String :=
  (splitCharsOn sep s.data).map List.asString

/-- The initials derivation of `_drawEntities`:
`title.split(" ").map((part) => part[0]).join("").substr(0, 3)`
(JavaScript `join` renders the `undefined` first character of an empty
part as the empty string). -/
def jsInitials3 (title : String) : String :=
  (String.join ((jsSplitOn ' ' title).map (fun part => part.take 1))).take 3

/-- The per-entity outcome of the `_drawEntities` loop body: skipped, a
zone (icon marker plus radius circle), or a normal entity (marker,
focus eligibility, optional accuracy circle). -/
inductive EntityResult where
  | skip
  | zone (marker : DrawnObject) (circle : DrawnObject)
  | entity (marker : DrawnObject) (focus : Bool) (accuracy : Option DrawnObject)
deriving DecidableEq

/-- One iteration of the `_drawEntities` loop: resolve the snapshot
entry, skip on missing entry or falsy coordinates, then branch on the
domain classification into the zone case or the normal-entity case. -/
def entityResult (env : Env) (entity : MapEntitySpec) : EntityResult :=
  match lookupState env.states (getEntityId entity) with
  | none => .skip
  | some stateObj =>
    let customTitle : Option String :=
      match entity with
      | .id _ => none
      | .entity e => e.name
    let title := customTitle.getD (env.computeStateName stateObj)
    let attrs := stateObj.attributes
    if !(jsTruthyQ attrs.latitude && jsTruthyQ attrs.longitude) then .skip
    else
      let pos : LatLng := ⟨attrs.latitude.getD 0, attrs.longitude.getD 0⟩
      if env.computeStateDomain stateObj == "zone" then
        if attrs.passive && !env.renderPassive then .skip
        else
          let iconHTML : IconHtml :=
            if jsTruthyStr attrs.icon then .haIcon (attrs.icon.getD "")
            else .spanText title
          let className := if darkModeOf env then "dark" else "light"
          .zone
            (.marker pos ⟨iconHTML, (24, 24), className⟩ (some env.interactiveZones) title)
            (.circle pos false
              (if attrs.passive then env.passiveZoneColor else env.zoneColor)
              attrs.radius)
      else
        let labelIsState : Bool :=
          match entity with
          | .id _ => false
          | .entity e => e.label_mode == some .state
        let entityName :=
          if labelIsState then env.formatEntityState stateObj
          else customTitle.getD (jsInitials3 title)
        let picture :=
          if jsTruthyStr attrs.entity_picture then env.hassUrl (attrs.entity_picture.getD "")
          else ""
        let entityColor : Option String :=
          match entity with
          | .id _ => none
          | .entity e => some e.color
        let focus : Bool :=
          match entity with
          | .id _ => true
          | .entity e => e.focus != some false
        let marker : DrawnObject :=
          .marker pos ⟨.entityMarker (getEntityId entity) entityName picture entityColor,
            (48, 48), ""⟩ none title
        let accuracy : Option DrawnObject :=
          if jsTruthyQ attrs.gps_accuracy then
            some (.circle pos false env.darkPrimaryColor attrs.gps_accuracy)
          else none
        .entity marker focus accuracy

/-- The objects an entity contributes to `_mapItems` (the entity marker
and, when present, the accuracy circle). -/
def entityItemObjs (env : Env) (e : MapEntitySpec) : List DrawnObject :=
  match entityResult env e with
  | .skip => []
  | .zone _ _ => []
  | .entity m _ acc => m :: acc.toList

/-- The objects an entity contributes to `_mapZones` (the zone marker
and its radius circle). -/
def entityZoneObjs (env : Env) (e : MapEntitySpec) : List DrawnObject :=
  match entityResult env e with
  | .zone m c => [m, c]
  | _ => []

/-- The markers an entity contributes to `_mapFocusItems`. -/
def entityFocusObjs (env : Env) (e : MapEntitySpec) : List DrawnObject :=
  match entityResult env e with
  | .entity m focus _ => if focus then [m] else []
  | _ => []

/-- All objects drawn for one listed entity. -/
def entityDrawnObjects (env : Env) (e : MapEntitySpec) : List DrawnObject :=
  entityItemObjs env e ++ entityZoneObjs env e

/-- `_computePathTooltip`: the path's display name (JavaScript renders a
missing name as the text `undefined` in the template literal) and the
timestamp formatted by one of the three collaborator formatters. -/
def computePathTooltip (env : Env) (p : HaMapPaths) (pt : HaMapPathPoint) : String :=
  let formattedTime :=
    if p.fullDatetime then env.formatDateTime pt.timestamp
    else if env.isToday pt.timestamp then env.formatTimeWithSeconds pt.timestamp
    else env.formatTimeWeekday pt.timestamp
  (match p.name with
   | some n => n
   | none => "undefined") ++ "<br>" ++ formattedTime

/-- `opacityStep` of `_drawPaths`:
`path.gradualOpacity / (path.points.length - 2)` in JavaScript
arithmetic (the subtraction is on JavaScript numbers, so the divisor is
`0` for a 2-point path and negative below that). -/
def pathOpacityStep (p : HaMapPaths) : JsNum :=
  JsNum.div (.finite (p.gradualOpacity.getD 0)) (.finite ((p.points.length : ℚ) - 2))

/-- The opacity `_drawPaths` computes for point index `i`:
`baseOpacity + pointIndex * opacityStep` when `gradualOpacity` is
truthy, `undefined` otherwise.  Used for both the point marker and the
line segment starting at index `i`. -/
def pathOpacity (p : HaMapPaths) (pointIndex : ℕ) : Option JsNum :=
  if jsTruthyQ p.gradualOpacity then
    some (JsNum.add (.finite (1 - p.gradualOpacity.getD 0))
      (JsNum.mul (.finite (pointIndex : ℚ)) (pathOpacityStep p)))
  else none

/-- Placeholder path point for out-of-range indexing (the source only
indexes in range). -/
def defaultPathPoint : HaMapPathPoint := ⟨⟨0, 0⟩, 0⟩

/-- One iteration of the point-pair loop of `_drawPaths`: the circular
point marker at index `pointIndex` (with its tooltip) and the line
segment to the next point. -/
def pathSegmentObjects (env : Env) (p : HaMapPaths) (pointIndex : ℕ) : List DrawnObject :=
  let opacity := pathOpacity p pointIndex
  let color := jsOrStr p.color env.darkPrimaryColor
  let radius : ℚ := if env.isTouch then 8 else 3
  [ .circleMarker (p.points.getD pointIndex defaultPathPoint).point radius color opacity
      (computePathTooltip env p (p.points.getD pointIndex defaultPathPoint)),
    .polyline (p.points.getD pointIndex defaultPathPoint).point
      (p.points.getD (pointIndex + 1) defaultPathPoint).point color opacity ]

/-- The final point marker of `_drawPaths`, emitted outside the
point-pair loop when `points.length - 1 >= 0`. -/
def pathFinalMarker (env : Env) (p : HaMapPaths) : List DrawnObject :=
  let pointIndex := p.points.length - 1
  if 1 ≤ p.points.length then
    [ .circleMarker (p.points.getD pointIndex defaultPathPoint).point
        (if env.isTouch then 8 else 3) (jsOrStr p.color env.darkPrimaryColor)
        (pathOpacity p pointIndex)
        (computePathTooltip env p (p.points.getD pointIndex defaultPathPoint)) ]
  else []

/-- All objects `_drawPaths` pushes for one path: the point-pair loop
over indices `0 .. points.length - 2`, then the final point marker. -/
def pathObjects (env : Env) (p : HaMapPaths) : List DrawnObject :=
  (List.range (p.points.length - 1)).flatMap (pathSegmentObjects env p)
    ++ pathFinalMarker env p

/-- Attach a list of layer ids to the map registry (Leaflet `addLayer`:
idempotent keyed insertion). -/
def addAll (s : Finset ℕ) (ids : List ℕ) : Finset ℕ :=
  ids.foldl (fun acc i => insert i acc) s

/-- Detach a list of layer ids from the map registry (Leaflet `remove`). -/
def removeAll (s : Finset ℕ) (ids : List ℕ) : Finset ℕ :=
  ids.foldl Finset.erase s

/-- The styling classes `_updateMapStyle` toggles on the `#map` element. -/
structure MapStyle where
  dark : Bool
  forcedDark : Bool
  forcedLight : Bool
deriving DecidableEq

/-- The classes `_updateMapStyle` computes from the current inputs. -/
def mapStyleOf (env : Env) : MapStyle :=
  ⟨darkModeOf env, env.themeMode == .dark, env.themeMode == .light⟩

/-- The mutable state of the component: readiness flags, the id
allocator, the set of layer ids attached to the Leaflet map, the four
owned collections (each entry an id paired with its description), the
styling classes, and the imperative viewport commands issued. -/
structure HaMapState where
  loaded : Bool
  hasMap : Bool
  hasLeaflet : Bool
  nextId : ℕ
  attached : Finset ℕ
  mapItems : List (ℕ × DrawnObject)
  mapFocusItems : List (ℕ × DrawnObject)
  mapZones : List (ℕ × DrawnObject)
  mapPaths : List (ℕ × DrawnObject)
  style : MapStyle
  mapZoom : Option ℚ

/-- The readiness guard shared by the drawing and fitting code
(`!this.hass || !this.leafletMap || !this.Leaflet`). -/
def readyGuard (env : Env) (st : HaMapState) : Bool :=
  env.hasHass && st.hasMap && st.hasLeaflet

/-- The accumulation loop of `_drawEntities`, allocating a fresh id for
every created object.  A zone pushes its marker and circle into
`_mapZones`; a normal entity pushes its marker (and the optional
accuracy circle) into `_mapItems` and, when focus-eligible, the marker
into `_mapFocusItems`. -/
structure BuildResult where
  items : List (ℕ × DrawnObject)
  focus : List (ℕ × DrawnObject)
  zones : List (ℕ × DrawnObject)
  nextId : ℕ

/-- Fold of the `_drawEntities` loop over the entity list, threading the
id allocator. -/
def buildEntities (env : Env) : ℕ → List MapEntitySpec → BuildResult
  | n, [] => ⟨[], [], [], n⟩
  | n, e :: rest =>
    match entityResult env e with
    | .skip => buildEntities env n rest
    | .zone m c =>
        let b := buildEntities env (n + 2) rest
        ⟨b.items, b.focus, (n, m) :: (n + 1, c) :: b.zones, b.nextId⟩
    | .entity m focus none =>
        let b := buildEntities env (n + 1) rest
        ⟨(n, m) :: b.items, if focus then (n, m) :: b.focus else b.focus, b.zones, b.nextId⟩
    | .entity m focus (some acc) =>
        let b := buildEntities env (n + 2) rest
        ⟨(n, m) :: (n + 1, acc) :: b.items, if focus then (n, m) :: b.focus else b.focus,
          b.zones, b.nextId⟩

/-- `_drawEntities`: guard on readiness; detach and clear `_mapItems`
(and `_mapFocusItems`) when nonempty; detach and clear `_mapZones` when
nonempty; return if `entities` is unset; rebuild the collections from
the entity list; finally attach every item, then every zone. -/
def drawEntities (env : Env) (st : HaMapState) : HaMapState :=
  if !readyGuard env st then st
  else
    let st1 :=
      if st.mapItems.isEmpty then st
      else { st with attached := removeAll st.attached (st.mapItems.map Prod.fst),
                     mapItems := [], mapFocusItems := [] }
    let st2 :=
      if st1.mapZones.isEmpty then st1
      else { st1 with attached := removeAll st1.attached (st1.mapZones.map Prod.fst),
                      mapZones := [] }
    match env.entities with
    | none => st2
    | some ents =>
      let b := buildEntities env st2.nextId ents
      { st2 with
        nextId := b.nextId,
        mapItems := b.items,
        mapFocusItems := b.focus,
        mapZones := b.zones,
        attached := addAll (addAll st2.attached (b.items.map Prod.fst))
          (b.zones.map Prod.fst) }

/-- Pair each object of a freshly built list with consecutive ids. -/
def withIds : ℕ → List DrawnObject → List (ℕ × DrawnObject)
  | _, [] => []
  | n, o :: os => (n, o) :: withIds (n + 1) os

/-- Intermediate state of the `paths.forEach` loop of `_drawPaths`. -/
structure PathBuild where
  nextId : ℕ
  attached : Finset ℕ
  acc : List (ℕ × DrawnObject)

/-- The `paths.forEach` loop of `_drawPaths`: push the objects of each
path onto the accumulated `_mapPaths`, then (inside the loop, as in the
source) attach every accumulated object to the map. -/
def buildPaths (env : Env) : List HaMapPaths → PathBuild → PathBuild
  | [], pb => pb
  | p :: rest, pb =>
    let objs := pathObjects env p
    let acc := pb.acc ++ withIds pb.nextId objs
    let att := addAll pb.attached (acc.map Prod.fst)
    buildPaths env rest ⟨pb.nextId + objs.length, att, acc⟩

/-- `_drawPaths`: guard on readiness; detach and clear `_mapPaths` when
nonempty; return if `paths` is unset; rebuild and attach per path. -/
def drawPaths (env : Env) (st : HaMapState) : HaMapState :=
  if !readyGuard env st then st
  else
    let st1 :=
      if st.mapPaths.isEmpty then st
      else { st with attached := removeAll st.attached (st.mapPaths.map Prod.fst),
                     mapPaths := [] }
    match env.paths with
    | none => st1
    | some ps =>
      let pb := buildPaths env ps ⟨st1.nextId, st1.attached, []⟩
      { st1 with nextId := pb.nextId, attached := pb.attached, mapPaths := pb.acc }

/-- The options argument of `fitMap`. -/
structure FitOptions where
  zoom : Option ℚ
  pad : Option ℚ
deriving DecidableEq

/-- The viewport command `fitMap` issues: nothing (readiness guard),
`setView` on a center and zoom (the degenerate case), or `fitBounds` on
the computed bounding region (region geometry itself is delegated to
Leaflet's `latLngBounds` and not modelled). -/
inductive FitResult where
  | noop
  | setView (center : LatLng) (zoom : ℚ)
  | fitBounds (pad : ℚ) (maxZoom : ℚ)
deriving DecidableEq

/-- `fitMap`: no-op unless ready; when there are no focus items and no
layers, center on the configured home coordinate at
`options?.zoom || this.zoom`; otherwise compute the padded bounding
region and fit it at `maxZoom: options?.zoom || this.zoom`. -/
def fitMap (env : Env) (st : HaMapState) (options : Option FitOptions) : FitResult :=
  if !readyGuard env st then .noop
  else if st.mapFocusItems.isEmpty &&
      (match env.layers with
       | none => true
       | some ls => ls.isEmpty) then
    .setView ⟨env.configLatitude, env.configLongitude⟩
      (jsOrQ (options.bind FitOptions.zoom) env.zoom)
  else
    .fitBounds ((options.bind FitOptions.pad).getD (1 / 2))
      (jsOrQ (options.bind FitOptions.zoom) env.zoom)

/-- `_drawLayers`: detach the previous layer list, then attach the
current one (if set). -/
def drawLayers (env : Env) (prevLayers : Option (List ℕ)) (st : HaMapState) : HaMapState :=
  let st1 :=
    match prevLayers with
    | none => st
    | some ls => { st with attached := removeAll st.attached ls }
  match env.layers with
  | none => st1
  | some ls => { st1 with attached := addAll st1.attached ls }

/-- The old snapshot handed back by `changedProps.get("hass")` when the
`hass` property changed. -/
structure OldHass where
  states : List (String × StateObj)
  themesDarkMode : Bool

/-- Which reactive properties changed in this update batch, with the old
values `update` reads back (`changedProps.get(...)`). -/
structure ChangedProps where
  loadedChanged : Bool
  entitiesChanged : Bool
  pathsChanged : Bool
  layersChanged : Bool
  zoomChanged : Bool
  themeModeChanged : Bool
  hassChanged : Bool
  oldHass : Option OldHass
  oldLayers : Option (List ℕ)

/-- The per-entity state-change scan of `update`: did any listed
entity's snapshot entry change between the old and the new snapshot?
(The source compares by object identity; snapshot entries are immutable
records, modelled as value equality.) -/
def entityStatesChanged (env : Env) (old : List (String × StateObj)) : Bool :=
  match env.entities with
  | none => false
  | some ents =>
    ents.any (fun e =>
      decide (lookupState old (getEntityId e) ≠ lookupState env.states (getEntityId e)))

/-- The side effects `update` can trigger, in program order. -/
inductive UpdateAction where
  | drawEntities
  | drawPaths
  | drawLayers
  | fitMap
  | setZoom
  | updateMapStyle
deriving DecidableEq

/-- The `update` method: returns the list of side effects it performs
for a given batch of changed properties, in program order.  Mirrors the
branch structure of the source, including the `autoFitRequired`
accumulation and the final theme-style guard. -/
def updateActions (env : Env) (st : HaMapState) (cp : ChangedProps) : List UpdateAction :=
  if !st.loaded then []
  else
    let entityRedraw : Bool × Bool :=
      if cp.loadedChanged || cp.entitiesChanged then (true, true)
      else
        match cp.oldHass with
        | some old =>
          if env.entities.isSome && entityStatesChanged env old.states then (true, true)
          else (false, false)
        | none => (false, false)
    let acts1 := if entityRedraw.1 then [UpdateAction.drawEntities] else []
    let acts2 := acts1 ++ (if cp.loadedChanged || cp.pathsChanged then [.drawPaths] else [])
    let layersRedraw := cp.loadedChanged || cp.layersChanged
    let acts3 := if layersRedraw then acts2 ++ [.drawLayers] else acts2
    let autoFitRequired := entityRedraw.2 || layersRedraw
    let acts4 :=
      if cp.loadedChanged || (env.autoFit && autoFitRequired) then acts3 ++ [.fitMap]
      else acts3
    let acts5 := if cp.zoomChanged then acts4 ++ [.setZoom] else acts4
    if !cp.themeModeChanged &&
        (!cp.hassChanged ||
          (match cp.oldHass with
           | some old => old.themesDarkMode == env.themesDarkMode
           | none => false)) then acts5
    else acts5 ++ [.updateMapStyle]

/-- Execute one side effect of `update` on the component state.
`fitMap` and `setZoom` act on the viewport (`mapZoom` records the last
`setZoom`; the `fitMap` command itself is pure and leaves the
collections untouched). -/
def applyAction (env : Env) (cp : ChangedProps) : UpdateAction → HaMapState → HaMapState
  | .drawEntities, st => drawEntities env st
  | .drawPaths, st => drawPaths env st
  | .drawLayers, st => drawLayers env cp.oldLayers st
  | .fitMap, st => st
  | .setZoom, st => { st with mapZoom := some env.zoom }
  | .updateMapStyle, st => { st with style := mapStyleOf env }

/-- One full `update` pass: run every triggered side effect in order. -/
def runUpdate (env : Env) (cp : ChangedProps) (st : HaMapState) : HaMapState :=
  (updateActions env st cp).foldl (fun s a => applyAction env cp a s) st

/-- The lifecycle flags of the component: attachment, the in-flight
acquisition guard `_loading`, readiness `_loaded`, and possession of the
Leaflet map handle. -/
structure LifecycleState where
  connected : Bool
  loading : Bool
  loaded : Bool
  hasMap : Bool
deriving DecidableEq

/-- Lifecycle events: `connectedCallback` (which calls `_loadMap`), the
completion of the awaited `setupLeafletMap` acquisition, and
`disconnectedCallback`. -/
inductive LifecycleEvent where
  | connect
  | acquireComplete
  | disconnect
deriving DecidableEq

/-- One lifecycle transition, as implemented:
* `connect` sets attachment and starts an acquisition unless one is
  already in flight (`if (this._loading) return`);
* `acquireComplete` (the code after the `await`) unconditionally commits
  the handle, applies styling, sets `_loaded`, and clears `_loading` —
  there is no re-check of the attached state and no generation token;
* `disconnect` releases the handle (when held) and resets `_loaded`,
  leaving `_loading` untouched. -/
def lifecycleStep (s : LifecycleState) : LifecycleEvent → LifecycleState
  | .connect =>
    let s := { s with connected := true }
    if s.loading then s else { s with loading := true }
  | .acquireComplete =>
    if s.loading then { s with hasMap := true, loaded := true, loading := false } else s
  | .disconnect =>
    let s := { s with connected := false }
    let s := if s.hasMap then { s with hasMap := false } else s
    { s with loaded := false }

/-- Run a sequence of lifecycle events. -/
def runLifecycle (s : LifecycleState) (evs : List LifecycleEvent) : LifecycleState :=
  evs.foldl lifecycleStep s

/-- The initial lifecycle state of a fresh component. -/
def lifecycleInit : LifecycleState := ⟨false, false, false, false⟩

/-! Supporting lemmas on the layer registry and id allocation. -/

theorem addAll_cons (s : Finset ℕ) (a : ℕ) (t : List ℕ) :
    addAll s (a :: t) = addAll (insert a s) t := rfl

theorem removeAll_cons (s : Finset ℕ) (a : ℕ) (t : List ℕ) :
    removeAll s (a :: t) = removeAll (s.erase a) t := rfl

theorem mem_addAll {i : ℕ} {l : List ℕ} {s : Finset ℕ} :
    i ∈ addAll s l ↔ i ∈ s ∨ i ∈ l := by
  induction l generalizing s with
  | nil => simp [addAll]
  | cons a t ih =>
    rw [addAll_cons, ih]
    simp [Finset.mem_insert]
    tauto

theorem mem_removeAll {i : ℕ} {l : List ℕ} {s : Finset ℕ} :
    i ∈ removeAll s l ↔ i ∈ s ∧ i ∉ l := by
  induction l generalizing s with
  | nil => simp [removeAll]
  | cons a t ih =>
    rw [removeAll_cons, ih]
    simp [Finset.mem_erase]
    tauto

theorem card_addAll {l : List ℕ} {s : Finset ℕ} (hnd : l.Nodup)
    (hfresh : ∀ i ∈ l, i ∉ s) : (addAll s l).card = s.card + l.length := by
  induction l generalizing s with
  | nil => simp [addAll]
  | cons a t ih =>
    have hnd' := List.nodup_cons.mp hnd
    rw [addAll_cons, ih hnd'.2 ?_, Finset.card_insert_of_not_mem (hfresh a (by simp))]
    · simp [Nat.add_assoc, Nat.add_comm 1]
    · intro i hi
      rw [Finset.mem_insert]
      push_neg
      exact ⟨fun hia => hnd'.1 (hia ▸ hi), hfresh i (by simp [hi])⟩

theorem card_removeAll {l : List ℕ} {s : Finset ℕ} (hnd : l.Nodup)
    (hsub : ∀ i ∈ l, i ∈ s) : (removeAll s l).card = s.card - l.length := by
  induction l generalizing s with
  | nil => simp [removeAll]
  | cons a t ih =>
    have hnd' := List.nodup_cons.mp hnd
    rw [removeAll_cons, ih hnd'.2 ?_, Finset.card_erase_of_mem (hsub a (by simp))]
    · simp only [List.length_cons]
      omega
    · intro i hi
      rw [Finset.mem_erase]
      exact ⟨fun hia => hnd'.1 (hia ▸ hi), hsub i (by simp [hi])⟩

theorem withIds_map_fst (l : List DrawnObject) :
    ∀ n : ℕ, ∀ i ∈ (withIds n l).map Prod.fst, n ≤ i ∧ i < n + l.length := by
  induction l with
  | nil => intro n i h; simp [withIds] at h
  | cons o os ih =>
    intro n i h
    simp only [withIds, List.map_cons, List.mem_cons] at h
    simp only [List.length_cons]
    rcases h with h | h
    · omega
    · have := ih (n + 1) i h
      omega

theorem withIds_length (l : List DrawnObject) (n : ℕ) :
    (withIds n l).length = l.length := by
  induction l generalizing n with
  | nil => rfl
  | cons o os ih => simp [withIds, ih]

/-- Number of ids the `_drawEntities` loop allocates for one entity. -/
def entityIdCount (env : Env) (e : MapEntitySpec) : ℕ :=
  match entityResult env e with
  | .skip => 0
  | .zone _ _ => 2
  | .entity _ _ none => 1
  | .entity _ _ (some _) => 2

/-- The ids held by the item and zone collections of a build result. -/
def builtIds (b : BuildResult) : List ℕ :=
  b.items.map Prod.fst ++ b.zones.map Prod.fst

theorem buildEntities_nextId (env : Env) :
    ∀ (es : List MapEntitySpec) (n : ℕ),
      (buildEntities env n es).nextId = n + (es.map (entityIdCount env)).sum := by
  intro es
  induction es with
  | nil => intro n; simp [buildEntities]
  | cons e t ih =>
    intro n
    cases h : entityResult env e with
    | skip => simp [buildEntities, h, entityIdCount, ih]
    | zone m c =>
      simp [buildEntities, h, entityIdCount, ih]
      omega
    | entity m focus acc =>
      cases acc with
      | none =>
        simp [buildEntities, h, entityIdCount, ih]
        omega
      | some a =>
        simp [buildEntities, h, entityIdCount, ih]
        omega

theorem buildEntities_items_snd (env : Env) :
    ∀ (es : List MapEntitySpec) (n : ℕ),
      (buildEntities env n es).items.map Prod.snd = es.flatMap (entityItemObjs env) := by
  intro es
  induction es with
  | nil => intro n; simp [buildEntities]
  | cons e t ih =>
    intro n
    cases h : entityResult env e with
    | skip => simp [buildEntities, h, entityItemObjs, ih]
    | zone m c => simp [buildEntities, h, entityItemObjs, ih]
    | entity m focus acc =>
      cases acc with
      | none => simp [buildEntities, h, entityItemObjs, ih]
      | some a => simp [buildEntities, h, entityItemObjs, ih]

theorem buildEntities_zones_snd (env : Env) :
    ∀ (es : List MapEntitySpec) (n : ℕ),
      (buildEntities env n es).zones.map Prod.snd = es.flatMap (entityZoneObjs env) := by
  intro es
  induction es with
  | nil => intro n; simp [buildEntities]
  | cons e t ih =>
    intro n
    cases h : entityResult env e with
    | skip => simp [buildEntities, h, entityZoneObjs, ih]
    | zone m c => simp [buildEntities, h, entityZoneObjs, ih]
    | entity m focus acc =>
      cases acc with
      | none => simp [buildEntities, h, entityZoneObjs, ih]
      | some a => simp [buildEntities, h, entityZoneObjs, ih]

theorem buildEntities_focus_snd (env : Env) :
    ∀ (es : List MapEntitySpec) (n : ℕ),
      (buildEntities env n es).focus.map Prod.snd = es.flatMap (entityFocusObjs env) := by
  intro es
  induction es with
  | nil => intro n; simp [buildEntities]
  | cons e t ih =>
    intro n
    cases h : entityResult env e with
    | skip => simp [buildEntities, h, entityFocusObjs, ih]
    | zone m c => simp [buildEntities, h, entityFocusObjs, ih]
    | entity m focus acc =>
      cases acc with
      | none =>
        cases focus <;> simp [buildEntities, h, entityFocusObjs, ih]
      | some a =>
        cases focus <;> simp [buildEntities, h, entityFocusObjs, ih]

theorem builtIds_skip (env : Env) (e : MapEntitySpec) (t : List MapEntitySpec) (n : ℕ)
    (h : entityResult env e = .skip) :
    builtIds (buildEntities env n (e :: t)) = builtIds (buildEntities env n t) := by
  simp only [buildEntities, h]

theorem builtIds_zone (env : Env) (e : MapEntitySpec) (t : List MapEntitySpec) (n : ℕ)
    (m c : DrawnObject) (h : entityResult env e = .zone m c) :
    builtIds (buildEntities env n (e :: t)) =
      (buildEntities env (n + 2) t).items.map Prod.fst ++
        (n :: (n + 1) :: (buildEntities env (n + 2) t).zones.map Prod.fst) := by
  simp only [buildEntities, h, builtIds, List.map_cons]

theorem builtIds_entity_none (env : Env) (e : MapEntitySpec) (t : List MapEntitySpec)
    (n : ℕ) (m : DrawnObject) (focus : Bool)
    (h : entityResult env e = .entity m focus none) :
    builtIds (buildEntities env n (e :: t)) =
      n :: builtIds (buildEntities env (n + 1) t) := by
  simp only [buildEntities, h, builtIds, List.map_cons, List.cons_append]

theorem builtIds_entity_some (env : Env) (e : MapEntitySpec) (t : List MapEntitySpec)
    (n : ℕ) (m a : DrawnObject) (focus : Bool)
    (h : entityResult env e = .entity m focus (some a)) :
    builtIds (buildEntities env n (e :: t)) =
      n :: (n + 1) :: builtIds (buildEntities env (n + 2) t) := by
  simp only [buildEntities, h, builtIds, List.map_cons, List.cons_append]

theorem buildEntities_nextId_mono (env : Env) (es : List MapEntitySpec) (n : ℕ) :
    n ≤ (buildEntities env n es).nextId := by
  rw [buildEntities_nextId]
  omega

theorem buildEntities_ids_bounds (env : Env) :
    ∀ (es : List MapEntitySpec) (n : ℕ), ∀ i ∈ builtIds (buildEntities env n es),
      n ≤ i ∧ i < (buildEntities env n es).nextId := by
  intro es
  induction es with
  | nil => intro n i hi; simp [buildEntities, builtIds] at hi
  | cons e t ih =>
    intro n i hi
    cases h : entityResult env e with
    | skip =>
      rw [builtIds_skip env e t n h] at hi
      have hb := ih n i hi
      simp only [buildEntities, h]
      exact hb
    | zone m c =>
      rw [builtIds_zone env e t n m c h] at hi
      have hnx : (buildEntities env n (e :: t)).nextId =
          (buildEntities env (n + 2) t).nextId := by
        simp only [buildEntities, h]
      rw [hnx]
      have hmono := buildEntities_nextId_mono env t (n + 2)
      rcases List.mem_append.mp hi with hi | hi
      · have hb := ih (n + 2) i (List.mem_append.mpr (Or.inl hi))
        omega
      · rcases List.mem_cons.mp hi with hi | hi
        · omega
        · rcases List.mem_cons.mp hi with hi | hi
          · omega
          · have hb := ih (n + 2) i (List.mem_append.mpr (Or.inr hi))
            omega
    | entity m focus acc =>
      cases acc with
      | none =>
        rw [builtIds_entity_none env e t n m focus h] at hi
        have hnx : (buildEntities env n (e :: t)).nextId =
            (buildEntities env (n + 1) t).nextId := by
          simp only [buildEntities, h]
        rw [hnx]
        have hmono := buildEntities_nextId_mono env t (n + 1)
        rcases List.mem_cons.mp hi with hi | hi
        · omega
        · have hb := ih (n + 1) i hi
          omega
      | some a =>
        rw [builtIds_entity_some env e t n m a focus h] at hi
        have hnx : (buildEntities env n (e :: t)).nextId =
            (buildEntities env (n + 2) t).nextId := by
          simp only [buildEntities, h]
        rw [hnx]
        have hmono := buildEntities_nextId_mono env t (n + 2)
        rcases List.mem_cons.mp hi with hi | hi
        · omega
        · rcases List.mem_cons.mp hi with hi | hi
          · omega
          · have hb := ih (n + 2) i hi
            omega

theorem buildEntities_ids_nodup (env : Env) :
    ∀ (es : List MapEntitySpec) (n : ℕ), (builtIds (buildEntities env n es)).Nodup := by
  intro es
  induction es with
  | nil => intro n; simp [buildEntities, builtIds]
  | cons e t ih =>
    intro n
    cases h : entityResult env e with
    | skip =>
      rw [builtIds_skip env e t n h]
      exact ih n
    | zone m c =>
      rw [builtIds_zone env e t n m c h]
      have ihn := ih (n + 2)
      rw [builtIds, List.nodup_append] at ihn
      have hb := buildEntities_ids_bounds env t (n + 2)
      rw [List.nodup_append]
      refine ⟨ihn.1, ?_, ?_⟩
      · rw [List.nodup_cons, List.nodup_cons]
        refine ⟨?_, ?_, ihn.2.1⟩
        · intro hm
          rcases List.mem_cons.mp hm with hm | hm
          · omega
          · have := hb n (List.mem_append.mpr (Or.inr hm))
            omega
        · intro hm
          have := hb (n + 1) (List.mem_append.mpr (Or.inr hm))
          omega
      · intro i hiA hiB
        have hbi := hb i (List.mem_append.mpr (Or.inl hiA))
        rcases List.mem_cons.mp hiB with hm | hm
        · omega
        · rcases List.mem_cons.mp hm with hm | hm
          · omega
          · exact ihn.2.2 hiA hm
    | entity m focus acc =>
      cases acc with
      | none =>
        rw [builtIds_entity_none env e t n m focus h]
        rw [List.nodup_cons]
        refine ⟨fun hm => ?_, ih (n + 1)⟩
        have := buildEntities_ids_bounds env t (n + 1) n hm
        omega
      | some a =>
        rw [builtIds_entity_some env e t n m a focus h]
        rw [List.nodup_cons, List.nodup_cons]
        refine ⟨fun hm => ?_, fun hm => ?_, ih (n + 2)⟩
        · rcases List.mem_cons.mp hm with hm | hm
          · omega
          · have := buildEntities_ids_bounds env t (n + 2) n hm
            omega
        · have := buildEntities_ids_bounds env t (n + 2) (n + 1) hm
          omega

theorem buildPaths_attached_mem (env : Env) :
    ∀ (ps : List HaMapPaths) (pb : PathBuild) (i : ℕ),
      i ∈ (buildPaths env ps pb).attached →
      i ∈ pb.attached ∨ i ∈ pb.acc.map Prod.fst ∨ pb.nextId ≤ i := by
  intro ps
  induction ps with
  | nil => intro pb i h; exact Or.inl h
  | cons p t ih =>
    intro pb i h
    have h' := ih _ i h
    simp only [List.map_append, List.mem_append] at h'
    rcases h' with h' | h' | h'
    · rw [mem_addAll] at h'
      rcases h' with h' | h'
      · exact Or.inl h'
      · simp only [List.map_append, List.mem_append] at h'
        rcases h' with h' | h'
        · exact Or.inr (Or.inl h')
        · have := withIds_map_fst (pathObjects env p) pb.nextId i h'
          exact Or.inr (Or.inr this.1)
    · rcases h' with h' | h'
      · exact Or.inr (Or.inl h')
      · have := withIds_map_fst (pathObjects env p) pb.nextId i h'
        exact Or.inr (Or.inr this.1)
    · exact Or.inr (Or.inr (by omega))

theorem drawPaths_attached_spec (env : Env) (st : HaMapState)
    (hg : readyGuard env st = true) :
    ∀ i ∈ (drawPaths env st).attached,
      (i ∈ st.attached ∧ i ∉ st.mapPaths.map Prod.fst) ∨ st.nextId ≤ i := by
  intro i hi
  unfold drawPaths at hi
  rw [hg] at hi
  simp only [Bool.not_true, Bool.false_eq_true, if_false, ite_false] at hi
  by_cases h1 : st.mapPaths.isEmpty
  · have e1 : st.mapPaths = [] := List.isEmpty_iff.mp h1
    rw [if_pos h1] at hi
    cases hp : env.paths with
    | none =>
      rw [hp] at hi
      exact Or.inl ⟨hi, by simp [e1]⟩
    | some ps =>
      rw [hp] at hi
      have := buildPaths_attached_mem env ps ⟨st.nextId, st.attached, []⟩ i hi
      simp only [List.map_nil, List.not_mem_nil] at this
      rcases this with h | h | h
      · exact Or.inl ⟨h, by simp [e1]⟩
      · exact absurd h (by simp)
      · exact Or.inr h
  · rw [if_neg h1] at hi
    cases hp : env.paths with
    | none =>
      rw [hp] at hi
      simp only at hi
      rw [mem_removeAll] at hi
      exact Or.inl hi
    | some ps =>
      rw [hp] at hi
      simp only at hi
      have := buildPaths_attached_mem env ps
        ⟨st.nextId, removeAll st.attached (st.mapPaths.map Prod.fst), []⟩ i hi
      rcases this with h | h | h
      · rw [mem_removeAll] at h
        exact Or.inl h
      · exact absurd h (by simp)
      · exact Or.inr h

theorem drawEntities_some_eq (env : Env) (st : HaMapState)
    (hg : readyGuard env st = true) (ents : List MapEntitySpec)
    (he : env.entities = some ents) :
    drawEntities env st =
      { st with
        nextId := (buildEntities env st.nextId ents).nextId,
        mapItems := (buildEntities env st.nextId ents).items,
        mapFocusItems := (buildEntities env st.nextId ents).focus,
        mapZones := (buildEntities env st.nextId ents).zones,
        attached := addAll (addAll
            (removeAll (removeAll st.attached (st.mapItems.map Prod.fst))
              (st.mapZones.map Prod.fst))
            ((buildEntities env st.nextId ents).items.map Prod.fst))
          ((buildEntities env st.nextId ents).zones.map Prod.fst) } := by
  unfold drawEntities
  rw [hg]
  by_cases h1 : st.mapItems.isEmpty
  · have e1 : st.mapItems = [] := List.isEmpty_iff.mp h1
    by_cases h2 : st.mapZones.isEmpty
    · have e2 : st.mapZones = [] := List.isEmpty_iff.mp h2
      simp [h1, h2, he, e1, e2, removeAll]
    · simp [h1, h2, he, e1, removeAll]
  · by_cases h2 : st.mapZones.isEmpty
    · have e2 : st.mapZones = [] := List.isEmpty_iff.mp h2
      simp [h1, h2, he, e2, removeAll]
    · simp [h1, h2, he]

theorem drawEntities_none_fields (env : Env) (st : HaMapState)
    (hg : readyGuard env st = true) (he : env.entities = none) :
    (drawEntities env st).mapItems = [] ∧
    (drawEntities env st).mapZones = [] ∧
    (drawEntities env st).nextId = st.nextId ∧
    (drawEntities env st).mapPaths = st.mapPaths ∧
    (drawEntities env st).mapFocusItems =
      (if st.mapItems.isEmpty then st.mapFocusItems else []) ∧
    (drawEntities env st).attached =
      removeAll (removeAll st.attached (st.mapItems.map Prod.fst))
        (st.mapZones.map Prod.fst) := by
  unfold drawEntities
  rw [hg]
  by_cases h1 : st.mapItems.isEmpty
  · have e1 : st.mapItems = [] := List.isEmpty_iff.mp h1
    by_cases h2 : st.mapZones.isEmpty
    · have e2 : st.mapZones = [] := List.isEmpty_iff.mp h2
      simp [h1, h2, he, e1, e2, removeAll]
    · simp [h1, h2, he, e1, removeAll]
  · by_cases h2 : st.mapZones.isEmpty
    · have e2 : st.mapZones = [] := List.isEmpty_iff.mp h2
      simp [h1, h2, he, e2, removeAll]
    · simp [h1, h2, he]

theorem drawEntities_flags (env : Env) (st : HaMapState) :
    (drawEntities env st).hasMap = st.hasMap ∧
    (drawEntities env st).hasLeaflet = st.hasLeaflet ∧
    (drawEntities env st).loaded = st.loaded := by
  unfold drawEntities
  by_cases hg : readyGuard env st
  · rw [if_neg (by simp [hg])]
    by_cases h1 : st.mapItems.isEmpty <;> by_cases h2 : st.mapZones.isEmpty <;>
      cases he : env.entities <;> simp [h1, h2, he]
  · rw [if_pos (by simp [Bool.not_eq_true] at hg ⊢; exact hg)]
    exact ⟨rfl, rfl, rfl⟩

theorem drawEntities_attached_spec (env : Env) (st : HaMapState)
    (hg : readyGuard env st = true) :
    ∀ i ∈ (drawEntities env st).attached,
      (i ∈ st.attached ∧ i ∉ st.mapItems.map Prod.fst ∧ i ∉ st.mapZones.map Prod.fst) ∨
        st.nextId ≤ i := by
  intro i hi
  cases he : env.entities with
  | none =>
    rw [(drawEntities_none_fields env st hg he).2.2.2.2.2, mem_removeAll,
      mem_removeAll] at hi
    exact Or.inl ⟨hi.1.1, hi.1.2, hi.2⟩
  | some ents =>
    rw [drawEntities_some_eq env st hg ents he] at hi
    simp only at hi
    rw [mem_addAll, mem_addAll, mem_removeAll, mem_removeAll] at hi
    rcases hi with ((hi | hi) | hi)
    · exact Or.inl ⟨hi.1.1, hi.1.2, hi.2⟩
    · have := buildEntities_ids_bounds env ents st.nextId i
        (by rw [builtIds]; exact List.mem_append.mpr (Or.inl hi))
      exact Or.inr this.1
    · have := buildEntities_ids_bounds env ents st.nextId i
        (by rw [builtIds]; exact List.mem_append.mpr (Or.inr hi))
      exact Or.inr this.1

theorem removeAll_nil (s : Finset ℕ) : removeAll s [] = s := rfl

/-- Well-formedness of the component state: every attached layer id and
every id held by an owned collection was allocated below the current
counter.  This holds for the initial state (everything empty) and is
maintained by the renderers, which allocate only fresh ids. -/
def HaMapState.WF (st : HaMapState) : Prop :=
  (∀ i ∈ st.attached, i < st.nextId) ∧
  (∀ p ∈ st.mapItems, p.1 < st.nextId) ∧
  (∀ p ∈ st.mapZones, p.1 < st.nextId) ∧
  (∀ p ∈ st.mapPaths, p.1 < st.nextId)

theorem readyGuard_drawEntities (env : Env) (st : HaMapState) :
    readyGuard env (drawEntities env st) = readyGuard env st := by
  unfold readyGuard
  rw [(drawEntities_flags env st).1, (drawEntities_flags env st).2.1]

theorem buildEntities_items_length (env : Env) (es : List MapEntitySpec) (n m : ℕ) :
    (buildEntities env n es).items.length = (buildEntities env m es).items.length := by
  rw [← List.length_map _ Prod.snd, ← List.length_map _ Prod.snd,
    buildEntities_items_snd, buildEntities_items_snd]

theorem buildEntities_zones_length (env : Env) (es : List MapEntitySpec) (n m : ℕ) :
    (buildEntities env n es).zones.length = (buildEntities env m es).zones.length := by
  rw [← List.length_map _ Prod.snd, ← List.length_map _ Prod.snd,
    buildEntities_zones_snd, buildEntities_zones_snd]

theorem buildEntities_focus_length (env : Env) (es : List MapEntitySpec) (n m : ℕ) :
    (buildEntities env n es).focus.length = (buildEntities env m es).focus.length := by
  rw [← List.length_map _ Prod.snd, ← List.length_map _ Prod.snd,
    buildEntities_focus_snd, buildEntities_focus_snd]

theorem drawEntities_attached_card (env : Env) (st : HaMapState)
    (hg : readyGuard env st = true) (ents : List MapEntitySpec)
    (he : env.entities = some ents)
    (hb : ∀ i ∈ st.attached, i < st.nextId) :
    (drawEntities env st).attached.card =
      (removeAll (removeAll st.attached (st.mapItems.map Prod.fst))
          (st.mapZones.map Prod.fst)).card
        + (buildEntities env st.nextId ents).items.length
        + (buildEntities env st.nextId ents).zones.length := by
  have hnd := buildEntities_ids_nodup env ents st.nextId
  rw [builtIds, List.nodup_append] at hnd
  have hbounds := buildEntities_ids_bounds env ents st.nextId
  have hA : (drawEntities env st).attached =
      addAll (addAll
        (removeAll (removeAll st.attached (st.mapItems.map Prod.fst))
          (st.mapZones.map Prod.fst))
        ((buildEntities env st.nextId ents).items.map Prod.fst))
      ((buildEntities env st.nextId ents).zones.map Prod.fst) := by
    rw [drawEntities_some_eq env st hg ents he]
  have hCfresh : ∀ i ∈ removeAll (removeAll st.attached (st.mapItems.map Prod.fst))
      (st.mapZones.map Prod.fst), i < st.nextId := by
    intro i hi
    exact hb i (mem_removeAll.mp (mem_removeAll.mp hi).1).1
  rw [hA, card_addAll hnd.2.1 ?_, card_addAll hnd.1 ?_]
  · rw [List.length_map, List.length_map]
  · intro i hi
    intro hmem
    have := hbounds i (by rw [builtIds]; exact List.mem_append.mpr (Or.inl hi))
    have := hCfresh i hmem
    omega
  · intro i hi
    rw [mem_addAll]
    push_neg
    have hge := hbounds i (by rw [builtIds]; exact List.mem_append.mpr (Or.inr hi))
    refine ⟨fun hmem => ?_, fun hmem => hnd.2.2 hmem hi⟩
    have := hCfresh i hmem
    omega

theorem drawEntities_attached_bound (env : Env) (st : HaMapState)
    (hg : readyGuard env st = true)
    (hb : ∀ i ∈ st.attached, i < st.nextId) :
    ∀ i ∈ (drawEntities env st).attached, i < (drawEntities env st).nextId := by
  intro i hi
  cases he : env.entities with
  | none =>
    have hf := drawEntities_none_fields env st hg he
    rw [hf.2.2.2.2.2] at hi
    rw [hf.2.2.1]
    exact hb i (mem_removeAll.mp (mem_removeAll.mp hi).1).1
  | some ents =>
    have he1 := drawEntities_some_eq env st hg ents he
    rw [he1] at hi ⊢
    simp only at hi ⊢
    rw [mem_addAll, mem_addAll] at hi
    have hmono := buildEntities_nextId_mono env ents st.nextId
    rcases hi with (hi | hi) | hi
    · have := hb i (mem_removeAll.mp (mem_removeAll.mp hi).1).1
      omega
    · exact (buildEntities_ids_bounds env ents st.nextId i
        (by rw [builtIds]; exact List.mem_append.mpr (Or.inl hi))).2
    · exact (buildEntities_ids_bounds env ents st.nextId i
        (by rw [builtIds]; exact List.mem_append.mpr (Or.inr hi))).2

/-- C1. Every category re-render (entity markers/circles, zones,
path segments) first detaches every previously drawn object of that
category and clears the owned collection before creating replacements:
no id drawn by the previous render remains attached after the
re-render.  Consequently rendering the entity set twice with the same
entity list and snapshot leaves the same number of attached objects and
identical collection sizes after the second render as after the first —
no duplication, no leak. -/
theorem categoryRerender_detaches_and_idempotent (env : Env) (st : HaMapState)
    (hwf : st.WF) (hg : readyGuard env st = true) :
    (∀ i ∈ st.mapItems.map Prod.fst, i ∉ (drawEntities env st).attached) ∧
    (∀ i ∈ st.mapZones.map Prod.fst, i ∉ (drawEntities env st).attached) ∧
    (∀ i ∈ st.mapPaths.map Prod.fst, i ∉ (drawPaths env st).attached) ∧
    (drawEntities env (drawEntities env st)).attached.card
        = (drawEntities env st).attached.card ∧
    (drawEntities env (drawEntities env st)).mapItems.length
        = (drawEntities env st).mapItems.length ∧
    (drawEntities env (drawEntities env st)).mapFocusItems.length
        = (drawEntities env st).mapFocusItems.length ∧
    (drawEntities env (drawEntities env st)).mapZones.length
        = (drawEntities env st).mapZones.length := by
  have hg1 : readyGuard env (drawEntities env st) = true := by
    rw [readyGuard_drawEntities]
    exact hg
  have hstaleI : ∀ i ∈ st.mapItems.map Prod.fst, i ∉ (drawEntities env st).attached := by
    intro i hi hmem
    rcases drawEntities_attached_spec env st hg i hmem with h | h
    · exact h.2.1 hi
    · rcases List.mem_map.mp hi with ⟨p, hp, rfl⟩
      have := hwf.2.1 p hp
      omega
  have hstaleZ : ∀ i ∈ st.mapZones.map Prod.fst, i ∉ (drawEntities env st).attached := by
    intro i hi hmem
    rcases drawEntities_attached_spec env st hg i hmem with h | h
    · exact h.2.2 hi
    · rcases List.mem_map.mp hi with ⟨p, hp, rfl⟩
      have := hwf.2.2.1 p hp
      omega
  have hstaleP : ∀ i ∈ st.mapPaths.map Prod.fst, i ∉ (drawPaths env st).attached := by
    intro i hi hmem
    rcases drawPaths_attached_spec env st hg i hmem with h | h
    · exact h.2 hi
    · rcases List.mem_map.mp hi with ⟨p, hp, rfl⟩
      have := hwf.2.2.2 p hp
      omega
  have hidem : (drawEntities env (drawEntities env st)).attached.card
        = (drawEntities env st).attached.card ∧
      (drawEntities env (drawEntities env st)).mapItems.length
        = (drawEntities env st).mapItems.length ∧
      (drawEntities env (drawEntities env st)).mapFocusItems.length
        = (drawEntities env st).mapFocusItems.length ∧
      (drawEntities env (drawEntities env st)).mapZones.length
        = (drawEntities env st).mapZones.length := by
    cases he : env.entities with
    | none =>
      have h1 := drawEntities_none_fields env st hg he
      have h2 := drawEntities_none_fields env (drawEntities env st) hg1 he
      refine ⟨?_, ?_, ?_, ?_⟩
      · rw [h2.2.2.2.2.2, h1.1, h1.2.1, List.map_nil, removeAll_nil, removeAll_nil]
      · rw [h2.1, h1.1]
      · rw [h2.2.2.2.2.1, h1.1]
        simp
      · rw [h2.2.1, h1.2.1]
    | some ents =>
      have e1 := drawEntities_some_eq env st hg ents he
      have hA1 : (drawEntities env st).attached =
          addAll (addAll
            (removeAll (removeAll st.attached (st.mapItems.map Prod.fst))
              (st.mapZones.map Prod.fst))
            ((buildEntities env st.nextId ents).items.map Prod.fst))
          ((buildEntities env st.nextId ents).zones.map Prod.fst) := by rw [e1]
      have hI1 : (drawEntities env st).mapItems =
          (buildEntities env st.nextId ents).items := by rw [e1]
      have hF1 : (drawEntities env st).mapFocusItems =
          (buildEntities env st.nextId ents).focus := by rw [e1]
      have hZ1 : (drawEntities env st).mapZones =
          (buildEntities env st.nextId ents).zones := by rw [e1]
      have e2 := drawEntities_some_eq env (drawEntities env st) hg1 ents he
      have hI2 : (drawEntities env (drawEntities env st)).mapItems =
          (buildEntities env (drawEntities env st).nextId ents).items := by rw [e2]
      have hF2 : (drawEntities env (drawEntities env st)).mapFocusItems =
          (buildEntities env (drawEntities env st).nextId ents).focus := by rw [e2]
      have hZ2 : (drawEntities env (drawEntities env st)).mapZones =
          (buildEntities env (drawEntities env st).nextId ents).zones := by rw [e2]
      have hb1 := drawEntities_attached_bound env st hg hwf.1
      have hcard1 := drawEntities_attached_card env st hg ents he hwf.1
      have hcard2 := drawEntities_attached_card env (drawEntities env st) hg1 ents he hb1
      have hnd1 := buildEntities_ids_nodup env ents st.nextId
      rw [builtIds, List.nodup_append] at hnd1
      have hsubI : ∀ i ∈ (buildEntities env st.nextId ents).items.map Prod.fst,
          i ∈ (drawEntities env st).attached := by
        intro i hi
        rw [hA1, mem_addAll, mem_addAll]
        exact Or.inl (Or.inr hi)
      have hsubZ : ∀ i ∈ (buildEntities env st.nextId ents).zones.map Prod.fst,
          i ∈ removeAll (drawEntities env st).attached
            ((buildEntities env st.nextId ents).items.map Prod.fst) := by
        intro i hi
        rw [mem_removeAll]
        refine ⟨by rw [hA1, mem_addAll]; exact Or.inr hi, fun hm => hnd1.2.2 hm hi⟩
      have hC2 : (removeAll (removeAll (drawEntities env st).attached
          ((drawEntities env st).mapItems.map Prod.fst))
          ((drawEntities env st).mapZones.map Prod.fst)).card
          = (drawEntities env st).attached.card
            - (buildEntities env st.nextId ents).items.length
            - (buildEntities env st.nextId ents).zones.length := by
        rw [hI1, hZ1, card_removeAll hnd1.2.1 hsubZ, card_removeAll hnd1.1 hsubI,
          List.length_map, List.length_map]
      refine ⟨?_, ?_, ?_, ?_⟩
      · rw [hcard2, hC2,
          buildEntities_items_length env ents (drawEntities env st).nextId st.nextId,
          buildEntities_zones_length env ents (drawEntities env st).nextId st.nextId]
        omega
      · rw [hI2, hI1]
        exact buildEntities_items_length env ents (drawEntities env st).nextId st.nextId
      · rw [hF2, hF1]
        exact buildEntities_focus_length env ents (drawEntities env st).nextId st.nextId
      · rw [hZ2, hZ1]
        exact buildEntities_zones_length env ents (drawEntities env st).nextId st.nextId
  exact ⟨hstaleI, hstaleZ, hstaleP, hidem.1, hidem.2.1, hidem.2.2.1, hidem.2.2.2⟩

/-! Sample collaborator instances and concrete inputs.

The spec treats the domain classifier, name computation, formatters and
URL resolver as external collaborators; the theorems above and below are
parametric in them.  The following instances realise them for concrete
evaluation (the classifier takes the identifier text before the first
dot, which is how the platform derives an entity's domain). -/

def sampleComputeStateDomain (s : StateObj) : String :=
  (jsSplitOn '.' s.entity_id).headD ""

def sampleComputeStateName (s : StateObj) : String :=
  s.attributes.friendly_name.getD s.entity_id

def sampleEnv : Env where
  hasHass := true
  states := []
  themesDarkMode := false
  configLatitude := 52
  configLongitude := 5
  entities := none
  paths := none
  layers := none
  autoFit := false
  renderPassive := false
  interactiveZones := false
  fitZones := false
  themeMode := .auto
  zoom := 14
  isTouch := false
  zoneColor := "accentcolor"
  passiveZoneColor := "secondarytextcolor"
  darkPrimaryColor := "darkprimarycolor"
  computeStateDomain := sampleComputeStateDomain
  computeStateName := sampleComputeStateName
  formatEntityState := fun s => s.state
  hassUrl := fun s => "https://hass.example" ++ s
  formatDateTime := fun t => "datetime " ++ toString t
  formatTimeWithSeconds := fun t => "seconds " ++ toString t
  formatTimeWeekday := fun t => "weekday " ++ toString t
  isToday := fun t => decide (0 ≤ t ∧ t < 86400000)

def emptyState : HaMapState where
  loaded := true
  hasMap := true
  hasLeaflet := true
  nextId := 0
  attached := ∅
  mapItems := []
  mapFocusItems := []
  mapZones := []
  mapPaths := []
  style := ⟨false, false, false⟩
  mapZoom := none

/-- C2. For a gradual-opacity path with truthy factor `f` and `N ≥ 3`
points, the opacity computed for the point and line segment at index
`i` is exactly `(1 - f) + i * f / (N - 2)`; the first point (index 0)
gets opacity `1 - f`, and the last point (index `N - 1`) gets exactly
`1 + f / (N - 2)` — the value the claim's formula prescribes there,
which approaches `1.0` (from above) as `N` grows, the second-to-last
point being the one at exactly `1.0`. -/
theorem gradualOpacity_formula (p : HaMapPaths) (f : ℚ) (N : ℕ)
    (hf : p.gradualOpacity = some f) (hf0 : f ≠ 0)
    (hN : p.points.length = N) (h3 : 3 ≤ N) :
    (∀ i : ℕ, pathOpacity p i =
      some (.finite ((1 - f) + (i : ℚ) * (f / ((N : ℚ) - 2))))) ∧
    pathOpacity p 0 = some (.finite (1 - f)) ∧
    pathOpacity p (N - 1) = some (.finite (1 + f / ((N : ℚ) - 2))) ∧
    (∀ (env : Env) (i : ℕ), ∀ o ∈ pathSegmentObjects env p i,
      DrawnObject.opacityOf o =
        some (.finite ((1 - f) + (i : ℚ) * (f / ((N : ℚ) - 2))))) := by
  have hQ : (3 : ℚ) ≤ (N : ℚ) := by exact_mod_cast h3
  have hden : ((N : ℚ) - 2) ≠ 0 := by intro habs; linarith
  have hstep : pathOpacityStep p = .finite (f / ((N : ℚ) - 2)) := by
    rw [pathOpacityStep, hf, hN]
    simp [JsNum.div, hden]
  have hform : ∀ i : ℕ, pathOpacity p i =
      some (.finite ((1 - f) + (i : ℚ) * (f / ((N : ℚ) - 2)))) := by
    intro i
    rw [pathOpacity, hstep]
    simp [jsTruthyQ, hf, hf0, JsNum.mul, JsNum.add]
  refine ⟨hform, ?_, ?_, ?_⟩
  · rw [hform 0]
    norm_num
  · rw [hform (N - 1)]
    have hcast : ((N - 1 : ℕ) : ℚ) = (N : ℚ) - 1 := by
      have h1 : 1 ≤ N := by omega
      push_cast [Nat.cast_sub h1]
      ring
    rw [hcast]
    have : (1 - f) + ((N : ℚ) - 1) * (f / ((N : ℚ) - 2)) = 1 + f / ((N : ℚ) - 2) := by
      field_simp
      ring
    rw [this]
  · intro env i o ho
    simp only [pathSegmentObjects, List.mem_cons, List.not_mem_nil, or_false] at ho
    rcases ho with rfl | rfl
    · simp [DrawnObject.opacityOf, hform i]
    · simp [DrawnObject.opacityOf, hform i]

/-- Concrete 3-point gradual-opacity path (factor 3/5) for evaluation. -/
def samplePath3 : HaMapPaths where
  points := [⟨⟨1, 1⟩, 0⟩, ⟨⟨2, 2⟩, 60000⟩, ⟨⟨3, 3⟩, 120000⟩]
  color := none
  name := some "track"
  gradualOpacity := some (3 / 5)
  fullDatetime := false

theorem gradualOpacity_formula_witness :
    pathOpacity samplePath3 0 = some (.finite (1 - 3 / 5)) ∧
    pathOpacity samplePath3 2 = some (.finite (1 + (3 / 5) / ((3 : ℚ) - 2))) :=
  ⟨(gradualOpacity_formula samplePath3 (3 / 5) 3 rfl (by norm_num) rfl
      (by norm_num)).2.1,
   (gradualOpacity_formula samplePath3 (3 / 5) 3 rfl (by norm_num) rfl
      (by norm_num)).2.2.1⟩

theorem countP_range_segments (env : Env) (p : HaMapPaths) :
    ∀ k : ℕ,
      ((List.range k).flatMap (pathSegmentObjects env p)).countP
        DrawnObject.isCircleMarker = k ∧
      ((List.range k).flatMap (pathSegmentObjects env p)).countP
        DrawnObject.isPolyline = k := by
  intro k
  induction k with
  | zero => simp
  | succ k ih =>
    rw [List.range_succ, List.flatMap_append]
    constructor
    · rw [List.countP_append, ih.1]
      simp [pathSegmentObjects, List.countP_cons, DrawnObject.isCircleMarker,
        DrawnObject.isPolyline]
    · rw [List.countP_append, ih.2]
      simp [pathSegmentObjects, List.countP_cons, DrawnObject.isCircleMarker,
        DrawnObject.isPolyline]

/-- C4. For a path of `N ≥ 2` points, `_drawPaths` emits exactly `N`
circular point markers (every one carrying a tooltip by construction of
the `circleMarker` creation site) and exactly `N - 1` line segments; the
last emitted object is the final point's own marker, created outside
the point-pair loop. -/
theorem pathRenderer_counts (env : Env) (p : HaMapPaths) (N : ℕ)
    (hN : p.points.length = N) (h2 : 2 ≤ N) :
    (pathObjects env p).countP DrawnObject.isCircleMarker = N ∧
    (pathObjects env p).countP DrawnObject.isPolyline = N - 1 ∧
    (pathObjects env p).getLast?.map DrawnObject.isCircleMarker = some true := by
  have hfin : pathFinalMarker env p =
      [ .circleMarker (p.points.getD (p.points.length - 1) defaultPathPoint).point
          (if env.isTouch then 8 else 3) (jsOrStr p.color env.darkPrimaryColor)
          (pathOpacity p (p.points.length - 1))
          (computePathTooltip env p
            (p.points.getD (p.points.length - 1) defaultPathPoint)) ] := by
    rw [pathFinalMarker]
    rw [if_pos (by omega)]
  have hcount := countP_range_segments env p (p.points.length - 1)
  refine ⟨?_, ?_, ?_⟩
  · rw [pathObjects, List.countP_append, hcount.1, hfin]
    simp [List.countP_cons, DrawnObject.isCircleMarker]
    omega
  · rw [pathObjects, List.countP_append, hcount.2, hfin]
    simp [List.countP_cons, DrawnObject.isPolyline]
    omega
  · rw [pathObjects, hfin, List.getLast?_concat]
    simp [DrawnObject.isCircleMarker]

theorem pathRenderer_counts_witness :
    (pathObjects sampleEnv samplePath3).countP DrawnObject.isCircleMarker = 3 ∧
    (pathObjects sampleEnv samplePath3).countP DrawnObject.isPolyline = 3 - 1 ∧
    (pathObjects sampleEnv samplePath3).getLast?.map DrawnObject.isCircleMarker
      = some true :=
  pathRenderer_counts sampleEnv samplePath3 3 rfl (by norm_num)

/-- Concrete 2-point gradual-opacity path: the divide-by-zero input. -/
def samplePath2 : HaMapPaths where
  points := [⟨⟨1, 2⟩, 0⟩, ⟨⟨3, 4⟩, 60000⟩]
  color := none
  name := some "track"
  gradualOpacity := some (3 / 5)
  fullDatetime := false

/-- C8. The code does NOT special-case `N ≤ 2`: for a 2-point
gradual-opacity path the opacity-step divisor `points.length - 2` is
exactly `0`, the step evaluates to `+Infinity`, and the two point
opacities come out as `NaN` (index 0: `0 * Infinity`) and `+Infinity`
(index 1) — not full opacity.  This evaluates the code at the failing
input of the code_bug verdict. -/
theorem gradualOpacity_divide_by_zero_unguarded :
    ((samplePath2.points.length : ℚ) - 2 = 0) ∧
    pathOpacityStep samplePath2 = .posInf ∧
    pathOpacity samplePath2 0 = some .nan ∧
    pathOpacity samplePath2 1 = some .posInf ∧
    pathOpacity samplePath2 0 ≠ some (.finite 1) ∧
    pathOpacity samplePath2 1 ≠ some (.finite 1) := by
  have hlen : ((samplePath2.points.length : ℚ) - 2) = 0 := by
    norm_num [samplePath2]
  have hstep : pathOpacityStep samplePath2 = .posInf := by
    rw [pathOpacityStep, hlen]
    have hgo : samplePath2.gradualOpacity.getD 0 = 3 / 5 := rfl
    rw [hgo]
    norm_num [JsNum.div]
  have htr : jsTruthyQ samplePath2.gradualOpacity = true := by
    have hgo : samplePath2.gradualOpacity = some (3 / 5) := rfl
    rw [hgo]
    simp [jsTruthyQ]
  have h0 : pathOpacity samplePath2 0 = some .nan := by
    rw [pathOpacity, htr, if_pos rfl, hstep]
    have hgo : samplePath2.gradualOpacity.getD 0 = 3 / 5 := rfl
    rw [hgo]
    norm_num [JsNum.mul, JsNum.add]
  have h1 : pathOpacity samplePath2 1 = some .posInf := by
    rw [pathOpacity, htr, if_pos rfl, hstep]
    have hgo : samplePath2.gradualOpacity.getD 0 = 3 / 5 := rfl
    rw [hgo]
    norm_num [JsNum.mul, JsNum.add]
  refine ⟨hlen, hstep, h0, h1, ?_, ?_⟩
  · rw [h0]
    simp
  · rw [h1]
    simp

/-- C10. A snapshot entry whose latitude or longitude is exactly `0`
is treated like a missing coordinate by the falsy check
`!(latitude && longitude)`: the entity renderer draws nothing for that
entity, even though `0` is a geographically valid coordinate. -/
theorem zeroCoordinate_not_drawn (env : Env) (e : MapEntitySpec) (stateObj : StateObj)
    (hl : lookupState env.states (getEntityId e) = some stateObj)
    (h0 : stateObj.attributes.latitude = some 0 ∨
      stateObj.attributes.longitude = some 0) :
    entityResult env e = .skip ∧ entityDrawnObjects env e = [] := by
  have hskip : entityResult env e = .skip := by
    rw [entityResult.eq_def, hl]
    rcases h0 with h | h
    · simp [h, jsTruthyQ]
    · simp [h, jsTruthyQ]
  exact ⟨hskip, by simp [entityDrawnObjects, entityItemObjs, entityZoneObjs, hskip]⟩

/-- A tracker whose snapshot entry has latitude exactly `0`. -/
def zeroLatState : StateObj where
  entity_id := "device_tracker.boat"
  state := "not_home"
  attributes :=
    { latitude := some 0, longitude := some 9, passive := false, icon := none,
      radius := none, entity_picture := none, gps_accuracy := none,
      friendly_name := some "Boat" }

def envZeroLat : Env :=
  { sampleEnv with states := [("device_tracker.boat", zeroLatState)] }

theorem zeroCoordinate_not_drawn_witness :
    entityResult envZeroLat (.id "device_tracker.boat") = .skip ∧
    entityDrawnObjects envZeroLat (.id "device_tracker.boat") = [] :=
  zeroCoordinate_not_drawn envZeroLat (.id "device_tracker.boat") zeroLatState
    (by decide) (Or.inl rfl)

/-- The `divIcon` HTML of the zone marker the entity renderer creates
for an entity, when it creates one. -/
def zoneMarkerIconHtml (env : Env) (e : MapEntitySpec) : Option IconHtml :=
  match entityResult env e with
  | .zone (.marker _ d _ _) _ => some d.html
  | _ => none

/-- C6 (amended). For a drawn zone, the marker's icon HTML is the
zone's icon glyph (`ha-icon`) when the icon attribute is truthy, and
otherwise a `span` holding the zone's FULL title — the source assigns
`el.innerHTML = title` with no initials derivation and no 3-character
truncation (that truncation exists only in the non-zone entity-label
branch). -/
theorem zoneMarker_icon_contents (env : Env) (e : MapEntitySpec) (stateObj : StateObj)
    (hl : lookupState env.states (getEntityId e) = some stateObj)
    (hlat : jsTruthyQ stateObj.attributes.latitude = true)
    (hlng : jsTruthyQ stateObj.attributes.longitude = true)
    (hz : env.computeStateDomain stateObj = "zone")
    (hp : (stateObj.attributes.passive && !env.renderPassive) = false) :
    zoneMarkerIconHtml env e =
      some (if jsTruthyStr stateObj.attributes.icon then
          IconHtml.haIcon (stateObj.attributes.icon.getD "")
        else
          IconHtml.spanText
            ((match e with
              | .id _ => none
              | .entity he => he.name).getD (env.computeStateName stateObj))) := by
  rw [zoneMarkerIconHtml.eq_def, entityResult.eq_def, hl]
  simp only [hlat, hlng, hz, hp, Bool.and_self, Bool.not_true, Bool.false_eq_true,
    if_false, beq_self_eq_true, if_true, ite_false, ite_true]

/-- A zone without an icon, titled with three words. -/
def zoneStateNoIcon : StateObj where
  entity_id := "zone.base"
  state := "zoning"
  attributes :=
    { latitude := some 1, longitude := some 2, passive := false, icon := none,
      radius := some 100, entity_picture := none, gps_accuracy := none,
      friendly_name := some "Home Base Alpha" }

def envZone : Env := { sampleEnv with states := [("zone.base", zoneStateNoIcon)] }

/-- C6 (counterexample). For the icon-less zone "Home Base Alpha"
the drawn zone marker's HTML carries the full 15-character title — not
the 3-character initials ("HBA") the claim prescribes, and not any
string of at most 3 characters. -/
theorem zoneMarker_icon_cex :
    zoneMarkerIconHtml envZone (.id "zone.base") =
      some (.spanText "Home Base Alpha") ∧
    jsInitials3 "Home Base Alpha" = "HBA" ∧
    "Home Base Alpha" ≠ "HBA" ∧
    3 < ("Home Base Alpha").length := by
  refine ⟨by decide, by decide, by decide, by decide⟩

theorem zoneMarker_icon_contents_witness :
    zoneMarkerIconHtml envZone (.id "zone.base") =
      some (if jsTruthyStr zoneStateNoIcon.attributes.icon then
          IconHtml.haIcon (zoneStateNoIcon.attributes.icon.getD "")
        else
          IconHtml.spanText
            ((match (.id "zone.base" : MapEntitySpec) with
              | .id _ => none
              | .entity he => he.name).getD
              (envZone.computeStateName zoneStateNoIcon))) :=
  zoneMarker_icon_contents envZone (.id "zone.base") zoneStateNoIcon
    (by decide) (by decide) (by decide) (by decide) (by decide)

/-- C5 (amended). With the map ready, zero focus-eligible markers
and zero overlay layers, `fitMap` centers the viewport on the
backend-configured home coordinate and returns without invoking the
bounding-region computation (`fitBounds` is never produced).  The zoom
used is `options?.zoom || this.zoom`: the requested zoom when it is
truthy (nonzero), otherwise the current `zoom` property — a requested
zoom of `0` is treated like no requested zoom by the `||` fallback. -/
theorem fitMap_empty_centers_home (env : Env) (st : HaMapState)
    (options : Option FitOptions)
    (hready : readyGuard env st = true)
    (hfocus : st.mapFocusItems = [])
    (hlayers : env.layers = none ∨ env.layers = some []) :
    fitMap env st options =
      .setView ⟨env.configLatitude, env.configLongitude⟩
        (jsOrQ (options.bind FitOptions.zoom) env.zoom) ∧
    ∀ pad maxZoom, fitMap env st options ≠ .fitBounds pad maxZoom := by
  have hmain : fitMap env st options =
      .setView ⟨env.configLatitude, env.configLongitude⟩
        (jsOrQ (options.bind FitOptions.zoom) env.zoom) := by
    rw [fitMap]
    rcases hlayers with h | h <;> simp [hready, hfocus, h]
  refine ⟨hmain, fun pad maxZoom h => ?_⟩
  rw [hmain] at h
  exact FitResult.noConfusion h

theorem fitMap_empty_centers_home_witness :
    fitMap sampleEnv emptyState none =
      .setView ⟨sampleEnv.configLatitude, sampleEnv.configLongitude⟩
        (jsOrQ (Option.bind none FitOptions.zoom) sampleEnv.zoom) :=
  (fitMap_empty_centers_home sampleEnv emptyState none rfl rfl (Or.inl rfl)).1

/-- C5 (counterexample). With zero focus markers and zero layers and
an explicitly requested zoom of `0`, `fitMap` centers on the home
coordinate at zoom `14` (the current `zoom` property) — not at the
requested zoom `0`: `options?.zoom || this.zoom` drops a falsy request. -/
theorem fitMap_requested_zoom_zero_cex :
    fitMap sampleEnv emptyState (some ⟨some 0, none⟩) =
      .setView ⟨sampleEnv.configLatitude, sampleEnv.configLongitude⟩ 14 ∧
    fitMap sampleEnv emptyState (some ⟨some 0, none⟩) ≠
      .setView ⟨sampleEnv.configLatitude, sampleEnv.configLongitude⟩ 0 := by
  exact ⟨by decide, by decide⟩

/-- C3 (amended). Per listed entity: an entity absent from the
snapshot, or with falsy coordinates, contributes zero drawn objects
(silently skipped — the renderer is a total function, no error path);
an entity present with truthy coordinates contributes exactly one
marker, EXCEPT a zone that is passive while passive-rendering is
disabled, which contributes zero objects.  The renderer's collections
decompose entity-wise: after `_drawEntities`, `_mapItems` and
`_mapZones` hold exactly the per-entity contributions in list order. -/
theorem entityRenderer_marker_counts (env : Env) (e : MapEntitySpec) :
    (lookupState env.states (getEntityId e) = none →
      entityDrawnObjects env e = []) ∧
    (∀ stateObj, lookupState env.states (getEntityId e) = some stateObj →
      ((jsTruthyQ stateObj.attributes.latitude &&
          jsTruthyQ stateObj.attributes.longitude) = false →
        entityDrawnObjects env e = []) ∧
      ((jsTruthyQ stateObj.attributes.latitude &&
          jsTruthyQ stateObj.attributes.longitude) = true →
        (env.computeStateDomain stateObj = "zone" →
          (stateObj.attributes.passive && !env.renderPassive) = true →
          entityDrawnObjects env e = []) ∧
        ((env.computeStateDomain stateObj = "zone" →
            (stateObj.attributes.passive && !env.renderPassive) = false) →
          (entityDrawnObjects env e).countP DrawnObject.isMarker = 1))) ∧
    (∀ (ents : List MapEntitySpec) (st : HaMapState), env.entities = some ents →
      readyGuard env st = true →
      (drawEntities env st).mapItems.map Prod.snd =
        ents.flatMap (entityItemObjs env) ∧
      (drawEntities env st).mapZones.map Prod.snd =
        ents.flatMap (entityZoneObjs env)) := by
  refine ⟨?_, ?_, ?_⟩
  · intro h
    simp [entityDrawnObjects, entityItemObjs, entityZoneObjs, entityResult.eq_def, h]
  · intro stateObj hl
    refine ⟨?_, ?_⟩
    · intro hco
      simp [entityDrawnObjects, entityItemObjs, entityZoneObjs, entityResult.eq_def,
        hl, hco]
    · intro hco
      constructor
      · intro hz hp
        simp [entityDrawnObjects, entityItemObjs, entityZoneObjs, entityResult.eq_def,
          hl, hco, hz, hp]
      · intro hnp
        by_cases hz : env.computeStateDomain stateObj = "zone"
        · have hp := hnp hz
          simp [entityDrawnObjects, entityItemObjs, entityZoneObjs,
            entityResult.eq_def, hl, hco, hz, hp, DrawnObject.isMarker,
            List.countP_cons]
        · by_cases hacc : jsTruthyQ stateObj.attributes.gps_accuracy = true
          · simp [entityDrawnObjects, entityItemObjs, entityZoneObjs,
              entityResult.eq_def, hl, hco, hz, hacc, DrawnObject.isMarker,
              List.countP_cons, beq_iff_eq]
          · simp [entityDrawnObjects, entityItemObjs, entityZoneObjs,
              entityResult.eq_def, hl, hco, hz, hacc, DrawnObject.isMarker,
              List.countP_cons, beq_iff_eq]
  · intro ents st he hg
    constructor
    · rw [drawEntities_some_eq env st hg ents he]
      exact buildEntities_items_snd env ents st.nextId
    · rw [drawEntities_some_eq env st hg ents he]
      exact buildEntities_zones_snd env ents st.nextId

/-- A passive zone with valid coordinates. -/
def passiveZoneState : StateObj where
  entity_id := "zone.quiet"
  state := "zoning"
  attributes :=
    { latitude := some 3, longitude := some 4, passive := true, icon := none,
      radius := some 50, entity_picture := none, gps_accuracy := none,
      friendly_name := some "Quiet" }

def envPassiveZone : Env :=
  { sampleEnv with states := [("zone.quiet", passiveZoneState)] }

/-- C3 (counterexample). A passive zone, present in the snapshot with
truthy coordinates, is drawn with ZERO objects when passive rendering is
disabled — not the "exactly one marker" the claim asserts for every
present entity with valid coordinates. -/
theorem entityRenderer_marker_counts_cex :
    lookupState envPassiveZone.states "zone.quiet" = some passiveZoneState ∧
    jsTruthyQ passiveZoneState.attributes.latitude = true ∧
    jsTruthyQ passiveZoneState.attributes.longitude = true ∧
    envPassiveZone.renderPassive = false ∧
    entityDrawnObjects envPassiveZone (.id "zone.quiet") = [] ∧
    ((entityDrawnObjects envPassiveZone (.id "zone.quiet")).countP
        DrawnObject.isMarker = 1 → False) := by
  refine ⟨by decide, by decide, by decide, by decide, by decide, by decide⟩

/-- A normal entity with valid coordinates. -/
def lightState : StateObj where
  entity_id := "light.desk"
  state := "on"
  attributes :=
    { latitude := some 7, longitude := some 8, passive := false, icon := none,
      radius := none, entity_picture := none, gps_accuracy := none,
      friendly_name := some "Desk Light" }

def envLight : Env := { sampleEnv with states := [("light.desk", lightState)] }

theorem entityRenderer_marker_counts_witness :
    (entityDrawnObjects envLight (.id "light.desk")).countP
      DrawnObject.isMarker = 1 :=
  (((entityRenderer_marker_counts envLight (.id "light.desk")).2.1 lightState
    (by decide)).2 (by decide)).2 (fun hz => absurd hz (by decide))

/-- The changed-property batch in which only `themeMode` changed. -/
def cpThemeOnly : ChangedProps where
  loadedChanged := false
  entitiesChanged := false
  pathsChanged := false
  layersChanged := false
  zoomChanged := false
  themeModeChanged := true
  hassChanged := false
  oldHass := none
  oldLayers := none

/-- C9. An update in which only the theme mode changed (no entity,
path, layer, zoom, readiness or snapshot change) performs exactly one
side effect — `_updateMapStyle`, which toggles the styling classes —
and the resulting state is the old state with only the style replaced:
the drawn-object collections, the attached-layer registry and the id
allocator are untouched (no redraw of entities, paths or layers). -/
theorem themeToggle_updates_styles_only (env : Env) (st : HaMapState)
    (hl : st.loaded = true) :
    updateActions env st cpThemeOnly = [.updateMapStyle] ∧
    runUpdate env cpThemeOnly st = { st with style := mapStyleOf env } := by
  have hacts : updateActions env st cpThemeOnly = [.updateMapStyle] := by
    simp [updateActions, cpThemeOnly, hl]
  refine ⟨hacts, ?_⟩
  rw [runUpdate, hacts]
  rfl

theorem themeToggle_updates_styles_only_witness :
    updateActions sampleEnv emptyState cpThemeOnly = [.updateMapStyle] ∧
    runUpdate sampleEnv cpThemeOnly emptyState =
      { emptyState with style := mapStyleOf sampleEnv } :=
  themeToggle_updates_styles_only sampleEnv emptyState rfl

/-- C7. Evaluation of the lifecycle model at the race the claim is
about.  First conjunct block: if the component is detached while the
map-handle acquisition is still in flight, the completion that arrives
afterwards COMMITS the late handle and marks the component ready while
detached (`connected = false`, `loaded = true`, `hasMap = true`) — the
source has no generation token and no attached-state re-check after the
`await`, so the result is not discarded, contradicting the claim.
Second block: the detach itself does release the handle and reset
readiness when no acquisition is in flight. -/
theorem lateAcquisition_commits_after_detach :
    (runLifecycle lifecycleInit [.connect, .disconnect, .acquireComplete]).connected
        = false ∧
    (runLifecycle lifecycleInit [.connect, .disconnect, .acquireComplete]).loaded
        = true ∧
    (runLifecycle lifecycleInit [.connect, .disconnect, .acquireComplete]).hasMap
        = true ∧
    (runLifecycle lifecycleInit [.connect, .acquireComplete, .disconnect]).loaded
        = false ∧
    (runLifecycle lifecycleInit [.connect, .acquireComplete, .disconnect]).hasMap
        = false := by
  decide

/-- A ready state holding one previously drawn entity marker (attached
id 0, also focus-eligible) and one previously drawn zone circle
(attached id 1). -/
def stWithDrawn : HaMapState where
  loaded := true
  hasMap := true
  hasLeaflet := true
  nextId := 2
  attached := {0, 1}
  mapItems := [(0, .marker ⟨7, 8⟩ ⟨.spanText "old", (48, 48), ""⟩ none "old")]
  mapFocusItems := [(0, .marker ⟨7, 8⟩ ⟨.spanText "old", (48, 48), ""⟩ none "old")]
  mapZones := [(1, .circle ⟨7, 8⟩ false "oldcolor" none)]
  mapPaths := []
  style := ⟨false, false, false⟩
  mapZoom := none

def envRender : Env := { envLight with entities := some [.id "light.desk"] }

theorem categoryRerender_witness :
    (0 ∉ (drawEntities envRender stWithDrawn).attached) ∧
    (1 ∉ (drawEntities envRender stWithDrawn).attached) ∧
    (drawEntities envRender (drawEntities envRender stWithDrawn)).attached.card
      = (drawEntities envRender stWithDrawn).attached.card := by
  have h := categoryRerender_detaches_and_idempotent envRender stWithDrawn
    (by refine ⟨?_, ?_, ?_, ?_⟩ <;> decide) (by decide)
  exact ⟨h.1 0 (by decide), h.2.1 1 (by decide), h.2.2.2.1⟩
